import Mathlib

/-!
Shallow embedding of the tabular ingestion and aggregation pipeline of
`src/dashboard_app.py` (the TRACK dashboard).  The file contains two
near-duplicate script variants; the definitions below embed, faithfully to
the Python source:

* `get_sheet_data` (variant 1, lines 91-109): sharing-URL → CSV-export URL
  via the two regex searches `/d/([a-zA-Z0-9-_]+)` and `[#&]gid=([0-9]+)`;
* the remarks-column resolution (variant 1, lines 147-155);
* `load_data`'s column normalization (variant 2, lines 310-324);
* `get_pending_tasks_overview` (variant 2, lines 327-361);
* `get_upcoming_cases` (variant 2, lines 364-415);
* `get_officer_performance` (variant 2, lines 418-478).

Tables are modelled as a column list plus rows of cells, a cell being
`Option String` with `none` standing for a missing value (pandas `NaN`).
Dates are modelled as day numbers (`Int`); parsing models
`pd.to_datetime(..., dayfirst=True, errors=coerce)` restricted to
day-first `D/M/YYYY` strings, unparseable cells yielding `none` exactly as
`coerce` yields `NaT` (which every subsequent comparison excludes).
-/

namespace Track

/-! ### Character-list string utilities (kernel-friendly) -/

/-- `startsWithCL hay pat` : `hay` begins with `pat` (list-of-chars form). -/
def startsWithCL : List Char → List Char → Bool
  | _, [] => true
  | [], _ :: _ => false
  | h :: t, p :: ps => h = p && startsWithCL t ps

/-- `containsCL hay pat` : `pat` occurs as a contiguous run inside `hay`;
models Python's `pat in s`. -/
def containsCL : List Char → List Char → Bool
  | [], pat => pat.isEmpty
  | h :: t, pat => startsWithCL (h :: t) pat || containsCL t pat

/-- String containment, `pat in s` in Python. -/
def strContains (s pat : String) : Bool :=
  containsCL s.toList pat.toList

/-- Split a character list on a separator character (like `str.split`). -/
def splitOnCL (sep : Char) : List Char → List (List Char)
  | [] => [[]]
  | c :: t =>
    let r := splitOnCL sep t
    if c = sep then [] :: r
    else
      match r with
      | [] => [[c]]
      | h :: t2 => (c :: h) :: t2

/-- Lower-casing of a character list, `str.lower()` for ASCII content. -/
def toLowerCL (l : List Char) : List Char :=
  l.map Char.toLower

/-- Strip leading and trailing whitespace, `str.strip()`. -/
def trimCL (l : List Char) : List Char :=
  (((l.dropWhile Char.isWhitespace).reverse.dropWhile Char.isWhitespace).reverse)

/-- `str.strip()` on a Lean string. -/
def strStrip (s : String) : String :=
  ⟨trimCL s.data⟩

/-- `str.lower()` on a Lean string. -/
def strLower (s : String) : String :=
  ⟨toLowerCL s.data⟩

/-- Lexicographic order on character lists. -/
def leCL : List Char → List Char → Bool
  | [], _ => true
  | _ :: _, [] => false
  | a :: s, b :: t => if a = b then leCL s t else decide (a < b)

/-- Lexicographic string order (the group-key order of pandas `groupby`). -/
def strLe (a b : String) : Bool :=
  leCL a.data b.data

/-- Read a non-empty all-digit character list as a natural number. -/
def digitsToNat? (l : List Char) : Option Nat :=
  if !l.isEmpty && l.all Char.isDigit then
    some (l.foldl (fun n c => n * 10 + (c.toNat - 48)) 0)
  else
    none

/-! ### Calendar model -/

/-- Day number of the civil date `y-m-d` (days since 0000-03-01, Gregorian,
the standard `days_from_civil` computation).  Only its strict monotonicity
in calendar order matters; adding `timedelta(days = k)` in the source
corresponds to adding `k` here. -/
def daysFromCivil (y m d : Nat) : Nat :=
  let yy := if m ≤ 2 then y - 1 else y
  let era := yy / 400
  let yoe := yy % 400
  let mp := (m + 9) % 12
  let doy := (153 * mp + 2) / 5 + d - 1
  let doe := yoe * 365 + yoe / 4 - yoe / 100 + doy
  era * 146097 + doe

/-- Per-cell date parsing: models `pd.to_datetime(cell, errors=coerce,
dayfirst=True)` restricted to day-first `D/M/YYYY` strings.  A missing cell
or an unparseable string yields `none` (pandas `NaT`), which every later
window comparison excludes, exactly as `NaT` comparisons are false. -/
def parseDate (cell : Option String) : Option Int :=
  match cell with
  | none => none
  | some s =>
    match (splitOnCL '/' (trimCL s.toList)).map digitsToNat? with
    | [some d, some m, some y] =>
      if 1 ≤ d && d ≤ 31 && 1 ≤ m && m ≤ 12 then
        some (Int.ofNat (daysFromCivil y m d))
      else none
    | _ => none

/-! ### Data model: raw tables -/

/-- A row is one cell per column; `none` is a missing value (pandas `NaN`). -/
abbrev Row := List (Option String)

/-- A raw table: ordered column names plus rows, as loaded from CSV. -/
structure RawTable where
  columns : List String
  rows : List Row
deriving DecidableEq, Repr

/-- Pandas `df.empty`: true when the frame has no rows or no columns. -/
def RawTable.isEmpty (t : RawTable) : Bool :=
  t.rows.isEmpty || t.columns.isEmpty

/-- `df[c]` for one row: the cell in column `c`, `none` when the column is
absent or the cell is missing. -/
def cellOf (cols : List String) (r : Row) (c : String) : Option String :=
  match cols.findIdx? (fun x => x = c) with
  | some i => r.getD i none
  | none => none

/-- `df[col].astype(str).str.lower().str.strip()` applied to one cell:
`astype(str)` renders a missing value as the literal string `nan`. -/
def normStatus (cell : Option String) : String :=
  strStrip (strLower (cell.getD "nan"))

/-! ### Variant 1 loader: `get_sheet_data` (lines 91-109)

The Python uses `re.search` twice over the sharing URL:
`/d/([a-zA-Z0-9-_]+)` for the sheet id and `[#&]gid=([0-9]+)` for the gid.
Both searches are modelled directly: leftmost match, greedy capture. -/

/-- Character class `[a-zA-Z0-9-_]` of the sheet-id pattern. -/
def idClassChar (c : Char) : Bool :=
  c.isAlphanum || c = '-' || c = '_'

/-- Leftmost match of `/d/([a-zA-Z0-9-_]+)`: the captured group. -/
def findSheetIdCL : List Char → Option (List Char)
  | [] => none
  | c :: t =>
    if startsWithCL (c :: t) ['/', 'd', '/'] then
      let run := ((c :: t).drop 3).takeWhile idClassChar
      if run.isEmpty then findSheetIdCL t else some run
    else findSheetIdCL t

/-- Leftmost match of `[#&]gid=([0-9]+)`: the captured digit group. -/
def findGidCL : List Char → Option (List Char)
  | [] => none
  | c :: t =>
    if (c = '#' || c = '&') && startsWithCL t ['g', 'i', 'd', '='] then
      let run := (t.drop 4).takeWhile Char.isDigit
      if run.isEmpty then findGidCL t else some run
    else findGidCL t

/-- Sheet-id extraction from a sharing URL. -/
def extractSheetId (url : String) : Option String :=
  (findSheetIdCL url.toList).map List.asString

/-- Gid extraction from a sharing URL. -/
def extractGid (url : String) : Option String :=
  (findGidCL url.toList).map List.asString

/-- Outcome of `get_sheet_data`'s URL-parsing stage: either the constructed
CSV-export URL, or the parse-error path (`st.error` + `return None`, the
spec's `FetchFailed` with an unparseable reference). -/
inductive SheetFetch
  | csvUrl (u : String)
  | parseError
deriving DecidableEq, Repr

/-- `get_sheet_data` (lines 91-109): extract sheet id and gid; on success
build the CSV export URL, otherwise report the unparseable reference.
The function is total — no input raises. -/
def get_sheet_data (sheet_url : String) : SheetFetch :=
  match extractSheetId sheet_url, extractGid sheet_url with
  | some sid, some g =>
    .csvUrl ("https://docs.google.com/spreadsheets/d/" ++ sid ++
      "/export?format=csv&gid=" ++ g)
  | _, _ => .parseError

/-! ### Variant 2 loader normalization: `load_data` (lines 310-324) -/

/-- Column-name cleanup of `load_data`: first
`df.columns.str.strip()`, then `df.columns.str.lower()`. -/
def normalizeCols (cols : List String) : List String :=
  (cols.map strStrip).map strLower

/-- The table stored by `load_data` after a successful fetch: same rows,
columns renamed by `normalizeCols`. -/
def load_normalize (t : RawTable) : RawTable :=
  ⟨normalizeCols t.columns, t.rows⟩

/-! ### Variant 1 remarks-column resolution (lines 147-155) -/

/-- `remarks_cols = [col for col in available_cols if REMARKS in col and
MEETING not in col]` (line 150). -/
def remarksCandidates (cols : List String) : List String :=
  cols.filter (fun c => strContains c "REMARKS" && !strContains c "MEETING")

/-- `latest_remarks = remarks_cols[-1]` when `remarks_cols` is non-empty
(line 153): the LAST qualifying column in table order. -/
def latestRemarks (cols : List String) : Option String :=
  (remarksCandidates cols).getLast?

/-! ### Variant 2 aggregator building blocks -/

/-- Insert into a sorted list, in front of the first element it may
precede (structural recursion, so concrete tables evaluate). -/
def sInsert (le : α → α → Bool) (a : α) : List α → List α
  | [] => [a]
  | b :: t => if le a b then a :: b :: t else b :: sInsert le a t

/-- Stable insertion sort with a boolean comparator; models the row
reordering of `sort_values` (only the comparator matters to the claims,
which never depend on tie order). -/
def insertionSort (le : α → α → Bool) : List α → List α
  | [] => []
  | a :: t => sInsert le a (insertionSort le t)

/-- First-occurrence deduplication with an accumulator of already seen
values; models pandas `unique()` (first-occurrence order). -/
def uniqueFirstAux (seen : List String) : List String → List String
  | [] => []
  | a :: t =>
    if seen.contains a then uniqueFirstAux seen t
    else a :: uniqueFirstAux (a :: seen) t

/-- Distinct values in first-occurrence order, pandas `unique()`. -/
def uniqueFirst (l : List String) : List String :=
  uniqueFirstAux [] l

/-- Result of one aggregation call, as consumed by the renderer: either a
summary table of typed rows, or the missing-columns diagnostic that the
source emits via `st.error` (sheet name, missing required columns,
available columns) together with its error-placeholder return. -/
inductive AggResult (α : Type)
  | summary (rows : List α)
  | missingColumns (view : String) (missing : List String)
      (available : List String)
deriving DecidableEq, Repr

/-- `df.groupby(key).size().reset_index()`: one `(key, count)` pair per
distinct non-missing key, keys sorted ascending (pandas `sort=True`); rows
whose key is missing are dropped by pandas `groupby`. -/
def groupbySize (rows : List Row) (keyOf : Row → Option String) :
    List (String × Nat) :=
  (insertionSort strLe (uniqueFirst (rows.filterMap keyOf))).map
    (fun k => (k, (rows.filter (fun r => decide (keyOf r = some k))).length))

/-- Count column of a one-metric count table at a key, `0` when absent
(the `fillna(0)` convention of the source's merges). -/
def lookupD (l : List (String × Nat)) (k : String) : Nat :=
  match l.find? (fun p => decide (p.1 = k)) with
  | some p => p.2
  | none => 0

/-- Both count columns of a two-metric table at a key, `(0, 0)` when absent
(`fillna(0)` followed by `astype(int)`). -/
def lookup2 (l : List (String × Nat × Nat)) (k : String) : Nat × Nat :=
  match l.find? (fun p => decide (p.1 = k)) with
  | some p => p.2
  | none => (0, 0)

/-- `pd.merge(c, p, on=key, how=outer).fillna(0)`: every key present in
either input appears once, carrying both counts with zero defaults.  (The
row order of the intermediate frame is irrelevant: the source immediately
re-merges it onto the all-officers frame, which fixes the order.) -/
def outerMerge (c p : List (String × Nat)) : List (String × Nat × Nat) :=
  let cKeys := c.map (fun q => q.1)
  let keys := cKeys ++ (p.map (fun q => q.1)).filter
    (fun k => !(cKeys.contains k))
  keys.map (fun k => (k, lookupD c k, lookupD p k))

/-! ### `get_pending_tasks_overview` (lines 327-361) -/

/-- Required columns of the pending-tasks view (line 333). -/
def requiredPending : List String := ["officer name", "task status"]

/-- Missing required columns, `[col for col in required_cols if col not in
df.columns]` (line 334). -/
def missingPendingCols (t : RawTable) : List String :=
  requiredPending.filter (fun c => !(t.columns.contains c))

/-- The status filter of line 348: rows whose `task status`, rendered with
`astype(str)`, lower-cased and stripped, equals `pending`. -/
def pendingSurvivors (t : RawTable) : List Row :=
  t.rows.filter (fun r => decide (normStatus (cellOf t.columns r "task status") = "pending"))

/-- `summary.sort_values(by=count, ascending=False)` for one-metric rows. -/
def sortByCountDesc (l : List (String × Nat)) : List (String × Nat) :=
  insertionSort (fun a b => decide (b.2 ≤ a.2)) l

/-- `get_pending_tasks_overview` (lines 327-361): empty-frame placeholder,
missing-column diagnostic, `pending` status filter, group-by-officer count,
descending sort. -/
def get_pending_tasks_overview (t : RawTable) : AggResult (String × Nat) :=
  if t.isEmpty then .summary [("N/A", 0)]
  else if !(missingPendingCols t).isEmpty then
    .missingColumns "Pending Tasks Sheet (GID: 535674994)"
      (missingPendingCols t) t.columns
  else
    let survivors := pendingSurvivors t
    if survivors.isEmpty then .summary [("None", 0)]
    else
      .summary (sortByCountDesc
        (groupbySize survivors (fun r => cellOf t.columns r "officer name")))

/-! ### `get_upcoming_cases` (lines 364-415) -/

/-- The 14-day window predicate of lines 393-396 applied to one row:
`hearing date` parses (`NaT` rows fail) and lies in
`[today, today + 14]`, both ends inclusive. -/
def upcomingPred (today : Int) (cols : List String) (r : Row) : Bool :=
  match parseDate (cellOf cols r "hearing date") with
  | some d => decide (today ≤ d) && decide (d ≤ today + 14)
  | none => false

/-- Rows surviving the 14-day hearing-date filter. -/
def upcomingFilter (today : Int) (t : RawTable) : List Row :=
  t.rows.filter (upcomingPred today t.columns)

/-- `get_upcoming_cases` (lines 364-415).  The first component models the
`st.error` diagnostic (missing columns, available columns); the second is
the returned frame's rows.  The display projection and formatting of lines
399-413 only reorders and re-labels columns of the surviving rows, so the
surviving rows themselves are returned. -/
def get_upcoming_cases (today : Int) (t : RawTable) :
    Option (List String × List String) × List Row :=
  if t.isEmpty then (none, [])
  else if !(["hearing date"].filter (fun c => !(t.columns.contains c))).isEmpty then
    (some (["hearing date"].filter (fun c => !(t.columns.contains c)), t.columns), [])
  else (none, upcomingFilter today t)

/-! ### `get_officer_performance` (lines 418-478) -/

/-- Required columns of the performance view (line 424). -/
def requiredPerf : List String := ["officer name", "task status", "completion date"]

/-- Missing required columns of the performance view (line 425). -/
def missingPerfCols (t : RawTable) : List String :=
  requiredPerf.filter (fun c => !(t.columns.contains c))

/-- The completed-in-window filter of lines 450-454: status normalizes to
`complete` and `completion date` parses into `[today - 7, today]`,
inclusive at both ends (`NaT` rows fail the comparisons). -/
def completedPred (today : Int) (cols : List String) (r : Row) : Bool :=
  decide (normStatus (cellOf cols r "task status") = "complete") &&
    (match parseDate (cellOf cols r "completion date") with
     | some d => decide (today - 7 ≤ d) && decide (d ≤ today)
     | none => false)

/-- Rows counted as completed in the last seven days. -/
def completedSurvivors (today : Int) (t : RawTable) : List Row :=
  t.rows.filter (completedPred today t.columns)

/-- `get_officer_performance` (lines 418-478): empty-frame placeholder,
missing-column diagnostic, the two independent filtered group-bys, the
outer merge of their counts, the left merge onto all distinct non-missing
officers (`df[officer].dropna().unique()`, first-occurrence order), and the
descending sort on the completed count. -/
def get_officer_performance (today : Int) (t : RawTable) :
    AggResult (String × Nat × Nat) :=
  if t.isEmpty then .summary [("N/A", 0, 0)]
  else if !(missingPerfCols t).isEmpty then
    .missingColumns "Performance Sheet (GID: 213021534)"
      (missingPerfCols t) t.columns
  else
    let officerOf := fun r => cellOf t.columns r "officer name"
    let completed_counts := groupbySize (completedSurvivors today t) officerOf
    let pending_counts := groupbySize (pendingSurvivors t) officerOf
    let merged := outerMerge completed_counts pending_counts
    let all_officers := uniqueFirst (t.rows.filterMap officerOf)
    let perf := all_officers.map (fun k => (k, lookup2 merged k))
    .summary (insertionSort (fun a b => decide (b.2.1 ≤ a.2.1)) perf)

/-! ## General lemmas about the building blocks -/

theorem sInsert_perm (le : α → α → Bool) (a : α) (l : List α) :
    (sInsert le a l).Perm (a :: l) := by
  induction l with
  | nil => exact List.Perm.refl _
  | cons b t ih =>
    unfold sInsert
    by_cases h : le a b
    · rw [if_pos h]
    · rw [if_neg h]
      exact (ih.cons b).trans (List.Perm.swap a b t)

theorem insertionSort_perm (le : α → α → Bool) (l : List α) :
    (insertionSort le l).Perm l := by
  induction l with
  | nil => exact List.Perm.refl _
  | cons a t ih =>
    exact (sInsert_perm le a (insertionSort le t)).trans (ih.cons a)

theorem mem_insertionSort (le : α → α → Bool) (l : List α) (a : α) :
    a ∈ insertionSort le l ↔ a ∈ l :=
  (insertionSort_perm le l).mem_iff

theorem mem_uniqueFirstAux (seen l : List String) (a : String) :
    a ∈ uniqueFirstAux seen l ↔ a ∈ l ∧ a ∉ seen := by
  induction l generalizing seen with
  | nil => simp [uniqueFirstAux]
  | cons b t ih =>
    unfold uniqueFirstAux
    by_cases h : b ∈ seen
    · have hc : seen.contains b = true := by simpa using h
      rw [if_pos hc, ih]
      simp only [List.mem_cons]
      constructor
      · rintro ⟨hat, hns⟩
        exact ⟨Or.inr hat, hns⟩
      · rintro ⟨hab | hat, hns⟩
        · exact absurd (hab ▸ h) hns
        · exact ⟨hat, hns⟩
    · rw [if_neg (by simpa using h)]
      simp only [List.mem_cons, ih]
      constructor
      · rintro (hab | ⟨hat, hns⟩)
        · exact ⟨Or.inl hab, hab ▸ h⟩
        · exact ⟨Or.inr hat, fun hx => hns (Or.inr hx)⟩
      · rintro ⟨hab | hat, hns⟩
        · exact Or.inl hab
        · by_cases hb : a = b
          · exact Or.inl hb
          · exact Or.inr ⟨hat, fun hx => hx.elim hb hns⟩

theorem nodup_uniqueFirstAux (seen l : List String) :
    (uniqueFirstAux seen l).Nodup := by
  induction l generalizing seen with
  | nil => simp [uniqueFirstAux]
  | cons b t ih =>
    unfold uniqueFirstAux
    by_cases h : seen.contains b
    · rw [if_pos h]
      exact ih seen
    · rw [if_neg h]
      refine List.nodup_cons.mpr ⟨?_, ih (b :: seen)⟩
      rw [mem_uniqueFirstAux]
      rintro ⟨_, hn⟩
      exact hn (List.mem_cons_self b seen)

theorem count_filterMap_filter (rows : List Row) (keyOf : Row → Option String)
    (k : String) :
    (rows.filter (fun r => decide (keyOf r = some k))).length =
      (rows.filterMap keyOf).count k := by
  induction rows with
  | nil => simp
  | cons r t ih =>
    rw [List.filter_cons, List.filterMap_cons]
    cases h : keyOf r with
    | none => simp [ih]
    | some v =>
      by_cases hv : v = k
      · subst hv
        simp [ih, List.count_cons]
      · simp [hv, ih, List.count_cons]

theorem sum_map_add (L : List α) (f g : α → Nat) :
    (L.map (fun x => f x + g x)).sum = (L.map f).sum + (L.map g).sum := by
  induction L with
  | nil => simp
  | cons a t ih =>
    simp [ih]
    omega

theorem sum_ite_eq_count (L : List String) (v : String) :
    (L.map (fun k => if k = v then 1 else 0)).sum = L.count v := by
  induction L with
  | nil => simp
  | cons b t ih =>
    rw [List.map_cons, List.sum_cons, ih, List.count_cons]
    by_cases h : b = v
    · subst h
      simp [Nat.add_comm]
    · simp [h, Ne.symm h]

theorem sum_counts_nodup (L vals : List String) (hnd : L.Nodup)
    (hsub : ∀ v ∈ vals, v ∈ L) :
    (L.map (fun k => vals.count k)).sum = vals.length := by
  induction vals with
  | nil => simp
  | cons v vs ih =>
    have hv : v ∈ L := hsub v (List.mem_cons_self v vs)
    have hsub2 : ∀ x ∈ vs, x ∈ L := fun x hx => hsub x (List.mem_cons_of_mem v hx)
    have hstep : (L.map (fun k => (v :: vs).count k)).sum =
        (L.map (fun k => vs.count k + (if k = v then 1 else 0))).sum := by
      refine congrArg List.sum (List.map_congr_left ?_)
      intro k _
      rw [List.count_cons]
      congr 1
      by_cases h : k = v
      · subst h
        simp
      · simp [h, Ne.symm h]
    rw [hstep, sum_map_add, ih hsub2, sum_ite_eq_count,
      List.count_eq_one_of_mem hnd hv]
    simp

theorem find?_keyed_map {β : Type} (L : List String) (g : String → β) (k : String) :
    (L.map (fun x => (x, g x))).find? (fun p => decide (p.1 = k)) =
      if k ∈ L then some (k, g k) else none := by
  induction L with
  | nil => simp
  | cons b t ih =>
    rw [List.map_cons]
    by_cases h : b = k
    · subst h
      rw [List.find?_cons_of_pos _ (by simp)]
      simp
    · rw [List.find?_cons_of_neg _ (by simp [h]), ih]
      have h2 : ¬k = b := fun he => h he.symm
      simp [h2]

theorem lookupD_eq_zero (l : List (String × Nat)) (k : String)
    (h : k ∉ l.map (fun q => q.1)) : lookupD l k = 0 := by
  unfold lookupD
  cases hf : l.find? (fun p => decide (p.1 = k)) with
  | none => rfl
  | some q =>
    have h1 : q.1 = k := by simpa using List.find?_some hf
    have h2 : q ∈ l := List.mem_of_find?_eq_some hf
    exact absurd (h1 ▸ List.mem_map_of_mem (fun q => q.1) h2) h

theorem lookupD_groupbySize (rows : List Row) (keyOf : Row → Option String)
    (k : String) :
    lookupD (groupbySize rows keyOf) k = (rows.filterMap keyOf).count k := by
  unfold lookupD groupbySize
  rw [find?_keyed_map]
  by_cases hk : k ∈ insertionSort strLe (uniqueFirst (rows.filterMap keyOf))
  · rw [if_pos hk]
    exact count_filterMap_filter rows keyOf k
  · rw [if_neg hk]
    have h1 : k ∉ rows.filterMap keyOf := by
      rw [mem_insertionSort] at hk
      unfold uniqueFirst at hk
      rw [mem_uniqueFirstAux] at hk
      intro hmem
      exact hk ⟨hmem, List.not_mem_nil k⟩
    exact (List.count_eq_zero.mpr h1).symm

theorem sum_groupbySize (rows : List Row) (keyOf : Row → Option String) :
    ((groupbySize rows keyOf).map (fun p => p.2)).sum =
      (rows.filterMap keyOf).length := by
  unfold groupbySize
  rw [List.map_map]
  show ((insertionSort strLe (uniqueFirst (rows.filterMap keyOf))).map
    (fun k => (rows.filter (fun r => decide (keyOf r = some k))).length)).sum = _
  rw [List.map_congr_left
    (fun k _ => count_filterMap_filter rows keyOf k)]
  rw [((insertionSort_perm strLe (uniqueFirst (rows.filterMap keyOf))).map
    (fun k => (rows.filterMap keyOf).count k)).sum_eq]
  exact sum_counts_nodup _ _ (nodup_uniqueFirstAux [] _)
    (fun v hv => (mem_uniqueFirstAux [] _ v).mpr ⟨hv, List.not_mem_nil v⟩)

theorem lookup2_outerMerge (c p : List (String × Nat)) (k : String) :
    lookup2 (outerMerge c p) k = (lookupD c k, lookupD p k) := by
  unfold lookup2 outerMerge
  rw [find?_keyed_map]
  by_cases hk : k ∈ (c.map (fun q => q.1)) ++
      (p.map (fun q => q.1)).filter (fun x => !((c.map (fun q => q.1)).contains x))
  · rw [if_pos hk]
  · rw [if_neg hk]
    rw [List.mem_append] at hk
    push_neg at hk
    obtain ⟨h1, h2⟩ := hk
    have hp : k ∉ p.map (fun q => q.1) := by
      intro hmem
      exact h2 (List.mem_filter.mpr ⟨hmem, by simp [h1]⟩)
    rw [lookupD_eq_zero c k h1, lookupD_eq_zero p k hp]

theorem filterMap_filter_subset (rows : List Row) (p : Row → Bool)
    (keyOf : Row → Option String) :
    ∀ v ∈ (rows.filter p).filterMap keyOf, v ∈ rows.filterMap keyOf := by
  intro v hv
  rw [List.mem_filterMap] at hv ⊢
  obtain ⟨r, hr, hk⟩ := hv
  exact ⟨r, (List.mem_filter.mp hr).1, hk⟩

theorem survivors_of_isEmpty (t : RawTable) (h : t.isEmpty = true) :
    pendingSurvivors t = [] ∧ ∀ today, completedSurvivors today t = [] := by
  unfold RawTable.isEmpty at h
  rw [Bool.or_eq_true] at h
  rcases h with h | h
  · rw [List.isEmpty_iff] at h
    exact ⟨by unfold pendingSurvivors; rw [h]; rfl,
           fun today => by unfold completedSurvivors; rw [h]; rfl⟩
  · rw [List.isEmpty_iff] at h
    constructor
    · unfold pendingSurvivors
      refine List.filter_eq_nil_iff.mpr ?_
      intro r _
      have hc : cellOf ([] : List String) r "task status" = none := rfl
      rw [h, hc]
      decide
    · intro today
      unfold completedSurvivors
      refine List.filter_eq_nil_iff.mpr ?_
      intro r _
      unfold completedPred
      have hc : cellOf ([] : List String) r "task status" = none := rfl
      rw [h, hc]
      have hd : decide (normStatus none = "complete") = false := by decide
      rw [hd]
      simp

theorem sum_map_lookup2_fst (L : List String) (c p : List (String × Nat)) :
    ((L.map (fun k => (k, lookup2 (outerMerge c p) k))).map (fun q => q.2.1)).sum =
      (L.map (fun k => lookupD c k)).sum := by
  rw [List.map_map]
  refine congrArg List.sum (List.map_congr_left ?_)
  intro k _
  show (lookup2 (outerMerge c p) k).1 = lookupD c k
  rw [lookup2_outerMerge]

theorem sum_map_lookup2_snd (L : List String) (c p : List (String × Nat)) :
    ((L.map (fun k => (k, lookup2 (outerMerge c p) k))).map (fun q => q.2.2)).sum =
      (L.map (fun k => lookupD p k)).sum := by
  rw [List.map_map]
  refine congrArg List.sum (List.map_congr_left ?_)
  intro k _
  show (lookup2 (outerMerge c p) k).2 = lookupD p k
  rw [lookup2_outerMerge]

theorem sum_map_lookupD_groupbySize (L : List String) (rows : List Row)
    (keyOf : Row → Option String) (hnd : L.Nodup)
    (hsub : ∀ v ∈ rows.filterMap keyOf, v ∈ L) :
    (L.map (fun k => lookupD (groupbySize rows keyOf) k)).sum =
      (rows.filterMap keyOf).length := by
  rw [List.map_congr_left (fun k _ => lookupD_groupbySize rows keyOf k)]
  exact sum_counts_nodup L _ hnd hsub

/-! ## Claim theorems -/

/-- C1, counterexample to the claim as stated: a table with column
`foo` only is missing every required role, yet because the source tests
`df.empty` first (line 329), the zero-row frame `(columns = [foo])`
gets the `N/A` placeholder summary, not the missing-columns diagnostic. -/
theorem C1_counterexample :
    "officer name" ∉ (RawTable.mk ["foo"] []).columns ∧
    get_pending_tasks_overview (RawTable.mk ["foo"] []) = .summary [("N/A", 0)] := by
  decide

/-- C1 (amended to non-empty tables): for every NON-EMPTY table missing a
required column, both aggregations return the missing-columns diagnostic
naming the view, the missing roles and the available columns, and never a
summary — no partial aggregation is attempted. -/
theorem C1_missing_columns :
    ∀ (t : RawTable) (today : Int), t.isEmpty = false →
      (missingPendingCols t ≠ [] →
        get_pending_tasks_overview t =
          .missingColumns "Pending Tasks Sheet (GID: 535674994)"
            (missingPendingCols t) t.columns ∧
        ∀ s, get_pending_tasks_overview t ≠ .summary s) ∧
      (missingPerfCols t ≠ [] →
        get_officer_performance today t =
          .missingColumns "Performance Sheet (GID: 213021534)"
            (missingPerfCols t) t.columns ∧
        ∀ s, get_officer_performance today t ≠ .summary s) := by
  intro t today he
  constructor
  · intro h
    have h1 : (missingPendingCols t).isEmpty = false := by
      simpa using h
    have hx : get_pending_tasks_overview t =
        .missingColumns "Pending Tasks Sheet (GID: 535674994)"
          (missingPendingCols t) t.columns := by
      simp [get_pending_tasks_overview, he, h1]
    exact ⟨hx, fun s hs => by rw [hx] at hs; exact AggResult.noConfusion hs⟩
  · intro h
    have h1 : (missingPerfCols t).isEmpty = false := by
      simpa using h
    have hx : get_officer_performance today t =
        .missingColumns "Performance Sheet (GID: 213021534)"
          (missingPerfCols t) t.columns := by
      simp [get_officer_performance, he, h1]
    exact ⟨hx, fun s hs => by rw [hx] at hs; exact AggResult.noConfusion hs⟩

/-- C1 witness: on a concrete non-empty table with a single unrelated
column, both views return the full diagnostic. -/
theorem C1_witness :
    get_pending_tasks_overview (RawTable.mk ["foo"] [[some "x"]]) =
      .missingColumns "Pending Tasks Sheet (GID: 535674994)"
        ["officer name", "task status"] ["foo"] ∧
    get_officer_performance 0 (RawTable.mk ["foo"] [[some "x"]]) =
      .missingColumns "Performance Sheet (GID: 213021534)"
        ["officer name", "task status", "completion date"] ["foo"] := by
  have h := C1_missing_columns (RawTable.mk ["foo"] [[some "x"]]) 0 (by decide)
  exact ⟨((h.1 (by decide)).1).trans (by decide),
         ((h.2 (by decide)).1).trans (by decide)⟩

/-- C2, counterexample: on the spec's scenario table (after the loader's
column normalization) the pending-tasks aggregation does NOT include
officer `B` at count zero — there is no outer join in this view. -/
theorem C2_counterexample :
    get_pending_tasks_overview
      (RawTable.mk (normalizeCols ["Officer Name", "Task Status"])
        [[some "A", some "Pending"], [some "B", some "Complete"],
         [some "A", some "pending"]]) ≠
      .summary [("A", 2), ("B", 0)] := by
  decide

/-- C2 (amended): the scenario returns a summary with the single row
`(A, 2)`; officers with no pending row are absent, the outer join against
all officers exists only in the performance view. -/
theorem C2_scenario :
    get_pending_tasks_overview
      (RawTable.mk (normalizeCols ["Officer Name", "Task Status"])
        [[some "A", some "Pending"], [some "B", some "Complete"],
         [some "A", some "pending"]]) =
      .summary [("A", 2)] := by
  decide

/-- C3: the URL parser accepts both sharing-URL forms the code uses (the
`edit` form with a `gid` fragment and the `gviz/tq` form with `&gid=`),
and whenever either identifier is not extractable the outcome is the
parse-error result — never an unhandled failure (the function is total). -/
theorem C3_url_parsing :
    (get_sheet_data "https://docs.google.com/spreadsheets/d/1jspebqSTXgEtYyxYAE47_uRn6RQKFlHQhneuQoGiCok/edit?gid=535674994#gid=535674994" =
      .csvUrl "https://docs.google.com/spreadsheets/d/1jspebqSTXgEtYyxYAE47_uRn6RQKFlHQhneuQoGiCok/export?format=csv&gid=535674994") ∧
    (get_sheet_data "https://docs.google.com/spreadsheets/d/14-idXJHzHKCUQxxaqGZi-6S0G20gvPUhK4G16ci2FwI/gviz/tq?tqx=out:csv&gid=213021534" =
      .csvUrl "https://docs.google.com/spreadsheets/d/14-idXJHzHKCUQxxaqGZi-6S0G20gvPUhK4G16ci2FwI/export?format=csv&gid=213021534") ∧
    ∀ url : String, (extractSheetId url = none ∨ extractGid url = none) →
      get_sheet_data url = .parseError := by
  refine ⟨by decide, by decide, ?_⟩
  intro url h
  unfold get_sheet_data
  split
  · rename_i sid g h1 h2
    rcases h with h | h
    · rw [h1] at h; exact Option.noConfusion h
    · rw [h2] at h; exact Option.noConfusion h
  · rfl

/-- C3 witness: a reference with no extractable identifiers yields the
parse-error outcome. -/
theorem C3_witness :
    get_sheet_data "nothing to see here" = .parseError :=
  C3_url_parsing.2.2 "nothing to see here" (Or.inl (by decide))

/-- C4, counterexample to the claim as stated: the loader does NOT
preserve letter case — `load_data` lower-cases every stripped column name
(line 320), so `Officer Name` is stored as `officer name`. -/
theorem C4_counterexample :
    load_normalize (RawTable.mk ["Officer Name"] []) ≠
      RawTable.mk ["Officer Name"] [] ∧
    load_normalize (RawTable.mk ["Officer Name"] []) =
      RawTable.mk ["officer name"] [] := by
  decide

/-- C4 (amended): the loader strips whitespace AND lower-cases every
column name; case-insensitivity of role matching is obtained by this
rewriting of the stored names, the aggregators then matching the
lower-case role names exactly: a required role name is present in the
stored columns exactly when some original column trims and lower-cases
to it. -/
theorem C4_normalization :
    ∀ (t : RawTable),
      (load_normalize t).columns = t.columns.map (fun c => strLower (strStrip c)) ∧
      ∀ r : String, r ∈ (load_normalize t).columns ↔
        ∃ c ∈ t.columns, strLower (strStrip c) = r := by
  intro t
  have hm : (load_normalize t).columns =
      t.columns.map (fun c => strLower (strStrip c)) := by
    simp [load_normalize, normalizeCols, List.map_map, Function.comp]
  refine ⟨hm, ?_⟩
  intro r
  rw [hm]
  simp [List.mem_map]

/-- C5, counterexample to the claim as stated: with two qualifying remarks
columns the source selects the LAST one in table order
(`remarks_cols[-1]`, line 153), not the first. -/
theorem C5_counterexample :
    latestRemarks ["REMARKS 1", "REMARKS 2"] = some "REMARKS 2" ∧
    latestRemarks ["REMARKS 1", "REMARKS 2"] ≠ some "REMARKS 1" := by
  decide

/-- C5 (amended): the substring-containment resolution selects the LAST
column in table order that qualifies (contains `REMARKS` and not
`MEETING`) — the source's "most recent" column. -/
theorem C5_last_match :
    ∀ (pre post : List String) (c : String),
      (strContains c "REMARKS" && !strContains c "MEETING") = true →
      (∀ d ∈ post, (strContains d "REMARKS" && !strContains d "MEETING") = false) →
      latestRemarks (pre ++ c :: post) = some c := by
  intro pre post c hc hpost
  unfold latestRemarks remarksCandidates
  rw [List.filter_append, List.filter_cons]
  have h2 : List.filter (fun c => strContains c "REMARKS" && !strContains c "MEETING") post = [] :=
    List.filter_eq_nil_iff.mpr (fun d hd => by rw [hpost d hd]; exact Bool.false_ne_true)
  rw [hc, h2]
  exact List.getLast?_concat _

/-- C5 witness: between a non-remarks column and a meeting-remarks column,
the qualifying column is selected. -/
theorem C5_witness :
    latestRemarks ["SR NO", "REMARKS 2", "MEETING REMARKS"] = some "REMARKS 2" :=
  C5_last_match ["SR NO"] ["MEETING REMARKS"] "REMARKS 2" (by decide) (by decide)

/-- C6: both date windows are inclusive at both ends — a hearing date of
exactly `today` or `today + 14` is retained and one day outside either
bound is excluded; a completion date of exactly `today - 7` or `today`
is retained (for a completed row) and one day outside either bound is
excluded. -/
theorem C6_window_inclusive :
    ∀ (today : Int) (t : RawTable) (r : Row) (d : Int),
      (r ∈ t.rows → parseDate (cellOf t.columns r "hearing date") = some d →
        (((d = today ∨ d = today + 14) → r ∈ upcomingFilter today t) ∧
         ((d = today - 1 ∨ d = today + 15) → r ∉ upcomingFilter today t))) ∧
      (r ∈ t.rows → normStatus (cellOf t.columns r "task status") = "complete" →
        parseDate (cellOf t.columns r "completion date") = some d →
        (((d = today - 7 ∨ d = today) → r ∈ completedSurvivors today t) ∧
         ((d = today - 8 ∨ d = today + 1) → r ∉ completedSurvivors today t))) := by
  intro today t r d
  constructor
  · intro hr hp
    constructor
    · intro hd
      refine List.mem_filter.mpr ⟨hr, ?_⟩
      unfold upcomingPred
      rw [hp]
      simp only [Bool.and_eq_true, decide_eq_true_eq]
      omega
    · intro hd hmem
      have hpred := (List.mem_filter.mp hmem).2
      unfold upcomingPred at hpred
      rw [hp] at hpred
      simp only [Bool.and_eq_true, decide_eq_true_eq] at hpred
      omega
  · intro hr hs hp
    constructor
    · intro hd
      refine List.mem_filter.mpr ⟨hr, ?_⟩
      unfold completedPred
      rw [hp, hs]
      simp only [Bool.and_eq_true, decide_eq_true_eq]
      exact ⟨by simp, by omega⟩
    · intro hd hmem
      have hpred := (List.mem_filter.mp hmem).2
      unfold completedPred at hpred
      rw [hp] at hpred
      simp only [Bool.and_eq_true, decide_eq_true_eq] at hpred
      omega

/-- C6 witness: concrete day numbers at both window boundaries. -/
theorem C6_witness :
    [some "01/10/2026"] ∈
      upcomingFilter 740195 (RawTable.mk ["hearing date"] [[some "01/10/2026"]]) ∧
    [some "A", some "Complete", some "08/10/2026"] ∈
      completedSurvivors 740209
        (RawTable.mk ["officer name", "task status", "completion date"]
          [[some "A", some "Complete", some "08/10/2026"]]) :=
  ⟨((C6_window_inclusive 740195
      (RawTable.mk ["hearing date"] [[some "01/10/2026"]])
      [some "01/10/2026"] 740195).1 (by decide) (by decide)).1 (Or.inl rfl),
   ((C6_window_inclusive 740209
      (RawTable.mk ["officer name", "task status", "completion date"]
        [[some "A", some "Complete", some "08/10/2026"]])
      [some "A", some "Complete", some "08/10/2026"] 740202).2
        (by decide) (by decide) (by decide)).1 (Or.inl (by decide))⟩

/-- C7, counterexample to the claim as stated: a row with status
`pending` but a MISSING officer cell survives the status filter yet is
dropped by pandas `groupby` (missing keys form no group), so the summary's
counts sum to 0 while 1 row survived the filters. -/
theorem C7_counterexample :
    get_pending_tasks_overview
      (RawTable.mk ["officer name", "task status"] [[none, some "pending"]]) =
      .summary [] ∧
    (pendingSurvivors
      (RawTable.mk ["officer name", "task status"] [[none, some "pending"]])).length = 1 := by
  decide

/-- C7 (amended): whenever an aggregation returns a summary, the sum of
its per-group counts equals the number of rows that survive the filters
AND carry a non-missing grouping-key value; rows with a missing grouping
key are dropped by the grouping step (pandas `groupby` forms no group for
them), not grouped under an `unspecified` key.  For the performance view
this holds for each count column against its own filter. -/
theorem C7_group_counts :
    ∀ (t : RawTable) (today : Int),
      (∀ s, get_pending_tasks_overview t = .summary s →
        (s.map (fun p => p.2)).sum =
          ((pendingSurvivors t).filterMap
            (fun r => cellOf t.columns r "officer name")).length) ∧
      (∀ s, get_officer_performance today t = .summary s →
        (s.map (fun p => p.2.1)).sum =
          ((completedSurvivors today t).filterMap
            (fun r => cellOf t.columns r "officer name")).length ∧
        (s.map (fun p => p.2.2)).sum =
          ((pendingSurvivors t).filterMap
            (fun r => cellOf t.columns r "officer name")).length) := by
  intro t today
  constructor
  · intro s hs
    simp only [get_pending_tasks_overview] at hs
    by_cases he : t.isEmpty = true
    · rw [if_pos he] at hs
      injection hs with h
      subst h
      have h0 := (survivors_of_isEmpty t he).1
      simp [h0]
    · rw [if_neg he] at hs
      by_cases hm : !(missingPendingCols t).isEmpty
      · rw [if_pos hm] at hs
        exact AggResult.noConfusion hs
      · rw [if_neg hm] at hs
        by_cases hsur : (pendingSurvivors t).isEmpty = true
        · rw [if_pos hsur] at hs
          injection hs with h
          subst h
          have h0 : pendingSurvivors t = [] := by simpa using hsur
          simp [h0]
        · rw [if_neg hsur] at hs
          injection hs with h
          subst h
          unfold sortByCountDesc
          rw [((insertionSort_perm (fun a b => decide (b.2 ≤ a.2))
            (groupbySize (pendingSurvivors t)
              (fun r => cellOf t.columns r "officer name"))).map
            (fun p => p.2)).sum_eq]
          exact sum_groupbySize _ _
  · intro s hs
    simp only [get_officer_performance] at hs
    by_cases he : t.isEmpty = true
    · rw [if_pos he] at hs
      injection hs with h
      subst h
      obtain ⟨hp0, hc0⟩ := survivors_of_isEmpty t he
      exact ⟨by simp [hc0 today], by simp [hp0]⟩
    · rw [if_neg he] at hs
      by_cases hm : !(missingPerfCols t).isEmpty
      · rw [if_pos hm] at hs
        exact AggResult.noConfusion hs
      · rw [if_neg hm] at hs
        injection hs with h
        subst h
        have hnd : (uniqueFirst (t.rows.filterMap
            (fun r => cellOf t.columns r "officer name"))).Nodup :=
          nodup_uniqueFirstAux [] _
        constructor
        · rw [((insertionSort_perm (fun a b => decide (b.2.1 ≤ a.2.1))
            ((uniqueFirst (t.rows.filterMap
              (fun r => cellOf t.columns r "officer name"))).map
              (fun k => (k, lookup2 (outerMerge
                (groupbySize (completedSurvivors today t)
                  (fun r => cellOf t.columns r "officer name"))
                (groupbySize (pendingSurvivors t)
                  (fun r => cellOf t.columns r "officer name"))) k)))).map
            (fun p => p.2.1)).sum_eq]
          rw [sum_map_lookup2_fst]
          refine sum_map_lookupD_groupbySize _ _ _ hnd ?_
          intro v hv
          exact (mem_uniqueFirstAux [] _ v).mpr
            ⟨filterMap_filter_subset t.rows (completedPred today t.columns) _ v hv,
             List.not_mem_nil v⟩
        · rw [((insertionSort_perm (fun a b => decide (b.2.1 ≤ a.2.1))
            ((uniqueFirst (t.rows.filterMap
              (fun r => cellOf t.columns r "officer name"))).map
              (fun k => (k, lookup2 (outerMerge
                (groupbySize (completedSurvivors today t)
                  (fun r => cellOf t.columns r "officer name"))
                (groupbySize (pendingSurvivors t)
                  (fun r => cellOf t.columns r "officer name"))) k)))).map
            (fun p => p.2.2)).sum_eq]
          rw [sum_map_lookup2_snd]
          refine sum_map_lookupD_groupbySize _ _ _ hnd ?_
          intro v hv
          exact (mem_uniqueFirstAux [] _ v).mpr
            ⟨filterMap_filter_subset t.rows
              (fun r => decide (normStatus (cellOf t.columns r "task status") = "pending")) _ v hv,
             List.not_mem_nil v⟩

/-- C7 witness: one pending row with a present officer, counted once. -/
theorem C7_witness :
    (([("A", 1)] : List (String × Nat)).map (fun p => p.2)).sum =
      ((pendingSurvivors (RawTable.mk ["officer name", "task status"]
          [[some "A", some "pending"]])).filterMap
        (fun r => cellOf ["officer name", "task status"] r "officer name")).length :=
  (C7_group_counts (RawTable.mk ["officer name", "task status"]
    [[some "A", some "pending"]]) 0).1 [("A", 1)] (by decide)

/-- C8: a row whose date cell fails to parse is silently excluded, on a
per-row basis: removing such a row from anywhere in the table leaves the
date-filtered row set unchanged, so one malformed row never aborts or
empties the aggregation of the remaining rows. -/
theorem C8_malformed_row_skipped :
    ∀ (today : Int) (cols : List String) (pre post : List Row) (r : Row),
      (parseDate (cellOf cols r "hearing date") = none →
        upcomingFilter today (RawTable.mk cols (pre ++ r :: post)) =
          upcomingFilter today (RawTable.mk cols (pre ++ post))) ∧
      (parseDate (cellOf cols r "completion date") = none →
        completedSurvivors today (RawTable.mk cols (pre ++ r :: post)) =
          completedSurvivors today (RawTable.mk cols (pre ++ post))) := by
  intro today cols pre post r
  constructor
  · intro h
    have hf : upcomingPred today cols r = false := by
      unfold upcomingPred; rw [h]
    unfold upcomingFilter
    simp only [List.filter_append, List.filter_cons, hf]
    simp
  · intro h
    have hf : completedPred today cols r = false := by
      unfold completedPred; rw [h]; simp
    unfold completedSurvivors
    simp only [List.filter_append, List.filter_cons, hf]
    simp

/-- C8 witness: inserting an unparseable-date row changes nothing. -/
theorem C8_witness :
    upcomingFilter 740195
      (RawTable.mk ["hearing date"] [[some "01/10/2026"], [some "garbage"]]) =
    upcomingFilter 740195 (RawTable.mk ["hearing date"] [[some "01/10/2026"]]) :=
  (C8_malformed_row_skipped 740195 ["hearing date"]
    [[some "01/10/2026"]] [] [some "garbage"]).1 (by decide)

/-- C9: the empty input frame gets the one-row `N/A` placeholder from both
aggregations — not an empty table, not an error variant (and the model is
total, so no exception). -/
theorem C9_empty_placeholder :
    ∀ (t : RawTable) (today : Int), t.isEmpty = true →
      get_pending_tasks_overview t = .summary [("N/A", 0)] ∧
      get_officer_performance today t = .summary [("N/A", 0, 0)] := by
  intro t today h
  exact ⟨by simp [get_pending_tasks_overview, h],
         by simp [get_officer_performance, h]⟩

/-- C9 witness: a concrete zero-row table. -/
theorem C9_witness :
    get_pending_tasks_overview (RawTable.mk ["x"] []) = .summary [("N/A", 0)] ∧
    get_officer_performance 0 (RawTable.mk ["x"] []) = .summary [("N/A", 0, 0)] :=
  C9_empty_placeholder (RawTable.mk ["x"] []) 0 (by decide)

/-- C10: the upcoming-cases view returns an empty frame in all three
situations — empty input, missing `hearing date` column, and no row
inside the 14-day window — so the returned frame alone cannot tell a
schema failure from a genuinely empty result. -/
theorem C10_empty_return_three_ways :
    ∀ (today : Int) (t : RawTable),
      (t.isEmpty = true → (get_upcoming_cases today t).2 = []) ∧
      ("hearing date" ∉ t.columns → (get_upcoming_cases today t).2 = []) ∧
      ((∀ r ∈ t.rows, upcomingPred today t.columns r = false) →
        (get_upcoming_cases today t).2 = []) := by
  intro today t
  refine ⟨?_, ?_, ?_⟩
  · intro h
    simp [get_upcoming_cases, h]
  · intro h
    by_cases he : t.isEmpty
    · simp [get_upcoming_cases, he]
    · simp [get_upcoming_cases, he, h]
  · intro h
    have hf : upcomingFilter today t = [] :=
      List.filter_eq_nil_iff.mpr (fun r hr => by rw [h r hr]; exact Bool.false_ne_true)
    unfold get_upcoming_cases
    rw [hf]
    split
    · rfl
    · split <;> rfl

/-- C10 witness: the three situations on concrete tables, all returning
the empty frame. -/
theorem C10_witness :
    (get_upcoming_cases 0 (RawTable.mk ["hearing date"] [])).2 = [] ∧
    (get_upcoming_cases 0 (RawTable.mk ["foo"] [[some "x"]])).2 = [] ∧
    (get_upcoming_cases 0 (RawTable.mk ["hearing date"] [[some "01/10/2026"]])).2 = [] :=
  ⟨(C10_empty_return_three_ways 0 (RawTable.mk ["hearing date"] [])).1 (by decide),
   (C10_empty_return_three_ways 0 (RawTable.mk ["foo"] [[some "x"]])).2.1 (by decide),
   (C10_empty_return_three_ways 0
     (RawTable.mk ["hearing date"] [[some "01/10/2026"]])).2.2 (by decide)⟩

end Track
